import Mathlib

/-!
Shallow embedding of `src/api/src/server.ts`, which contains two Express
server variants for the task CRUD API: a plain variant (first part of the
file) answering bare JSON values, and an envelope variant (second part)
answering `{success, data, message}` envelopes.  JSON request-body values
are modelled by `JVal`, timestamps by `Nat` (each handler receives its
`new Date()` reading as an argument; a trace presents readings in
nondecreasing order; the envelope variant's initial store takes the four
successive start-up readings that stamp its two seed records, while the
plain variant's seeds are collapsed to one reading — a simplification no
plain-side result depends on), and the `randomUUID` id generator by a fresh
counter carried in the store state.
-/

/-- A JSON scalar value as it can appear in a parsed request-body field.
A key that is absent from the body is `Option.none` around this type. -/
inductive JVal where
  | str (s : String)
  | num (n : Nat)
  | bool (b : Bool)
  | null
deriving Repr, DecidableEq

/-- JS `String.prototype.trim`: strip leading and trailing whitespace.
Written over the character list so that proofs can evaluate it. -/
def jsTrim (s : String) : String :=
  ⟨((s.data.dropWhile Char.isWhitespace).reverse.dropWhile Char.isWhitespace).reverse⟩

/-- The enumerated status values (`validStatuses` in both variants). -/
def validStatuses : List String := ["pending", "in_progress", "completed"]

/-- The enumerated priority values (`validPriorities` in both variants). -/
def validPriorities : List String := ["low", "medium", "high"]

/-- JS `xs.includes(j)` for an array `xs` of strings: true exactly when `j`
is the JSON string of a member. -/
def jvalIn (j : JVal) (xs : List String) : Bool :=
  match j with
  | .str s => xs.contains s
  | _ => false

/-- Extract the string accepted by `xs.includes(j)`: `some s` when `j` is
the JSON string `s` and `s` is listed, `none` otherwise. -/
def asEnum (j : JVal) (xs : List String) : Option String :=
  match j with
  | .str s => if xs.contains s then some s else none
  | _ => none

/-- First element satisfying `p` (JS `find`, or the element sitting at
`findIndex` when that index is not -1). -/
def findFirst {α : Type} (p : α → Bool) : List α → Option α
  | [] => none
  | x :: xs => if p x then some x else findFirst p xs

/-- Replace the first element satisfying `p` by `v` (the assignment
`tasks[taskIndex] = updatedTask`). -/
def setFirst {α : Type} (p : α → Bool) (v : α) : List α → List α
  | [] => []
  | x :: xs => if p x then v :: xs else x :: setFirst p v xs

/-- Remove the first element satisfying `p`, returning it and the rest
(`tasks.splice(taskIndex, 1)`). -/
def removeFirst {α : Type} (p : α → Bool) : List α → Option (α × List α)
  | [] => none
  | x :: xs =>
    if p x then some (x, xs)
    else
      match removeFirst p xs with
      | none => none
      | some (r, ys) => some (r, x :: ys)

/-- A JSON value in a response body, one nesting level deep (enough for the
health endpoints). -/
inductive HVal where
  | str (s : String)
  | num (n : Nat)
  | bool (b : Bool)
  | obj (fields : List (String × JVal))
deriving Repr, DecidableEq

namespace Plain

/-- A record of the plain variant's store.  The POST handler stores the
body's `status` and `priority` unchecked and the PUT handler spreads the
whole body over the record before an `as Task` cast, so at runtime every
field can hold an arbitrary JSON value. -/
structure Task where
  id : JVal
  title : JVal
  description : JVal
  status : JVal
  priority : JVal
  createdAt : JVal
  updatedAt : JVal
deriving Repr, DecidableEq

/-- The keys the plain POST handler destructures from the body. -/
structure CreateBody where
  title : Option JVal := none
  description : Option JVal := none
  status : Option JVal := none
  priority : Option JVal := none
deriving Repr

/-- A PUT body.  The handler spreads the whole body over the stored record,
so any record key may appear; `updatedAt` is listed for completeness but the
handler's own timestamp, written after the spread, always wins. -/
structure UpdateBody where
  id : Option JVal := none
  title : Option JVal := none
  description : Option JVal := none
  status : Option JVal := none
  priority : Option JVal := none
  createdAt : Option JVal := none
  updatedAt : Option JVal := none
deriving Repr

structure St where
  tasks : List Task
  nextId : Nat
deriving Repr, DecidableEq

def seed1 (t0 : Nat) : Task :=
  { id := .num 0, title := .str "Planejar sprint",
    description := .str "Listar tarefas principais da semana",
    status := .str "in_progress", priority := .str "high",
    createdAt := .num t0, updatedAt := .num t0 }

def seed2 (t0 : Nat) : Task :=
  { id := .num 1, title := .str "Configurar monitoramento",
    description := .str "Criar dashboard no Grafana",
    status := .str "pending", priority := .str "medium",
    createdAt := .num t0, updatedAt := .num t0 }

/-- The store at server start: the two seeded tasks.  The source stamps them
with four successive `new Date()` calls; collapsing those to one reading
`t0` is a simplification here, and no theorem about this variant depends on
the seeds' relative timestamps. -/
def init (t0 : Nat) : St := { tasks := [seed1 t0, seed2 t0], nextId := 2 }

inductive CreateRes where
  | badRequest (msg : String)
  | created (t : Task)
deriving Repr, DecidableEq

/-- POST /tasks, plain variant: only the title is validated
(`!title || typeof title !== "string"`, both cases answered by the same
400); `description`, `status`, `priority` default when absent and are
stored unchecked; the new task is unshifted onto the array. -/
def create (st : St) (b : CreateBody) (now : Nat) : CreateRes × St :=
  match b.title with
  | some (JVal.str s) =>
    if s = "" then (.badRequest "Título é obrigatório", st)
    else
      let t : Task :=
        { id := .num st.nextId, title := .str s,
          description := b.description.getD (.str ""),
          status := b.status.getD (.str "pending"),
          priority := b.priority.getD (.str "medium"),
          createdAt := .num now, updatedAt := .num now }
      (.created t, { tasks := t :: st.tasks, nextId := st.nextId + 1 })
  | _ => (.badRequest "Título é obrigatório", st)

/-- The predicate of `tasks.findIndex((task) => task.id === id)`. -/
def idMatches (i : JVal) (t : Task) : Bool := t.id == i

/-- The spread `{...tasks[taskIndex], ...req.body, updatedAt: now}`: every
body key overwrites the record's, then the handler's timestamp overwrites
`updatedAt`. -/
def merge (cur : Task) (b : UpdateBody) (now : Nat) : Task :=
  { id := b.id.getD cur.id,
    title := b.title.getD cur.title,
    description := b.description.getD cur.description,
    status := b.status.getD cur.status,
    priority := b.priority.getD cur.priority,
    createdAt := b.createdAt.getD cur.createdAt,
    updatedAt := .num now }

inductive UpdateRes where
  | notFound
  | updated (t : Task)
deriving Repr, DecidableEq

/-- PUT /tasks/:id, plain variant: 404 when the id matches no record,
otherwise the body is spread over the record with no validation at all. -/
def update (st : St) (i : JVal) (b : UpdateBody) (now : Nat) : UpdateRes × St :=
  match findFirst (idMatches i) st.tasks with
  | none => (.notFound, st)
  | some cur =>
    let u := merge cur b now
    (.updated u, { st with tasks := setFirst (idMatches i) u st.tasks })

inductive DeleteRes where
  | notFound
  | deleted (t : Task)
deriving Repr, DecidableEq

/-- DELETE /tasks/:id, plain variant. -/
def delete (st : St) (i : JVal) : DeleteRes × St :=
  match removeFirst (idMatches i) st.tasks with
  | none => (.notFound, st)
  | some (r, ts) => (.deleted r, { st with tasks := ts })

/-- GET /tasks, plain variant: the array exactly as stored. -/
def listAll (st : St) : List Task := st.tasks

/-- GET /health, plain variant: 200 with `{status: "ok", timestamp}`. -/
def health (now : Nat) : Nat × List (String × HVal) :=
  (200, [("status", .str "ok"), ("timestamp", .num now)])

/-- Store states reachable from server start, each paired with the time of
the last clock reading; handler timestamps arrive in nondecreasing order
(the system clock is monotone). -/
inductive Reach : St → Nat → Prop where
  | init (t0 : Nat) : Reach (Plain.init t0) t0
  | create {st t b n} : Reach st t → t ≤ n → Reach (Plain.create st b n).2 n
  | update {st t i b n} : Reach st t → t ≤ n → Reach (Plain.update st i b n).2 n
  | del {st t i} : Reach st t → Reach (Plain.delete st i).2 t

end Plain

namespace Env

/-- A record of the envelope variant's store.  Validation and the explicit
field-by-field merge keep every field at its annotated type. -/
structure Task where
  id : Nat
  title : String
  description : String
  status : String
  priority : String
  createdAt : Nat
  updatedAt : Nat
deriving Repr, DecidableEq

/-- The keys the envelope POST handler destructures (`CreateTaskBody`). -/
structure CreateBody where
  title : Option JVal := none
  description : Option JVal := none
  status : Option JVal := none
  priority : Option JVal := none
deriving Repr

/-- The keys the envelope PUT handler destructures (`UpdateTaskBody`); any
other body key is ignored by the explicit merge. -/
structure UpdateBody where
  title : Option JVal := none
  description : Option JVal := none
  status : Option JVal := none
  priority : Option JVal := none
deriving Repr

structure St where
  tasks : List Task
  nextId : Nat
deriving Repr, DecidableEq

/-- The first seeded record; `tc` and `tu` are the two successive
`new Date().toISOString()` readings that stamp its createdAt and
updatedAt. -/
def seed1 (tc tu : Nat) : Task :=
  { id := 0, title := "Planejar sprint",
    description := "Listar tarefas principais da semana",
    status := "in_progress", priority := "high",
    createdAt := tc, updatedAt := tu }

/-- The second seeded record, stamped by the third and fourth start-up clock
readings. -/
def seed2 (tc tu : Nat) : Task :=
  { id := 1, title := "Configurar monitoramento",
    description := "Criar dashboard no Grafana",
    status := "pending", priority := "medium",
    createdAt := tc, updatedAt := tu }

/-- The store at server start.  The source evaluates four successive
`new Date().toISOString()` calls — seed1's createdAt, seed1's updatedAt,
seed2's createdAt, seed2's updatedAt, in that order — so the four readings
are separate parameters, nondecreasing along a real trace but not
necessarily equal. -/
def init (tc1 tu1 tc2 tu2 : Nat) : St :=
  { tasks := [seed1 tc1 tu1, seed2 tc2 tu2], nextId := 2 }

def idMatches (i : Nat) (t : Task) : Bool := t.id == i

inductive CreateRes where
  | badRequest (msg : String)
  | serverError
  | created (t : Task)
deriving Repr, DecidableEq

/-- POST /tasks, envelope variant: the title must be a string that is
non-empty after trimming; `status` and `priority`, after defaulting, must
pass `includes`; the stored title and description are the trimmed strings;
the task is built with a single clock reading `now`.  A present
description that is neither string nor absent reaches `description.trim()`
and throws, which the global error handler answers with a 500, leaving the
store untouched. -/
def create (st : St) (b : CreateBody) (now : Nat) : CreateRes × St :=
  match b.title with
  | some (JVal.str s) =>
    if jsTrim s = "" then
      (.badRequest "Título é obrigatório e deve ser uma string não vazia", st)
    else
      match asEnum (b.status.getD (.str "pending")) validStatuses with
      | none => (.badRequest "Status inválido. Use: pending, in_progress, completed", st)
      | some ss =>
        match asEnum (b.priority.getD (.str "medium")) validPriorities with
        | none => (.badRequest "Prioridade inválida. Use: low, medium, high", st)
        | some ps =>
          match b.description.getD (.str "") with
          | JVal.str d =>
            let t : Task :=
              { id := st.nextId, title := jsTrim s, description := jsTrim d,
                status := ss, priority := ps, createdAt := now, updatedAt := now }
            (.created t, { tasks := t :: st.tasks, nextId := st.nextId + 1 })
          | _ => (.serverError, st)
  | _ => (.badRequest "Título é obrigatório e deve ser uma string não vazia", st)

inductive GetRes where
  | notFound
  | found (t : Task)
deriving Repr, DecidableEq

/-- GET /tasks/:id, envelope variant: `tasks.find`, 404 when absent. -/
def getById (st : St) (i : Nat) : GetRes :=
  match findFirst (idMatches i) st.tasks with
  | none => .notFound
  | some t => .found t

inductive UpdateRes where
  | notFound
  | badRequest (msg : String)
  | serverError
  | updated (t : Task)
deriving Repr, DecidableEq

/-- `title !== undefined && (typeof title !== "string" || title.trim() === "")`. -/
def titleBad : Option JVal → Bool
  | none => false
  | some (JVal.str s) => jsTrim s == ""
  | some _ => true

/-- `field !== undefined` implies `xs.includes(field)`. -/
def enumFieldOk (o : Option JVal) (xs : List String) : Bool :=
  match o with
  | none => true
  | some j => jvalIn j xs

/-- `description?.trim() ?? current`: an absent or null description keeps
the current value, a string is trimmed, anything else throws. -/
def descMerge : Option JVal → String → Option String
  | none, cur => some cur
  | some JVal.null, cur => some cur
  | some (JVal.str d), _ => some (jsTrim d)
  | some _, _ => none

/-- PUT /tasks/:id, envelope variant: 404 before validation; then title,
status and priority are validated (400); then the explicit merge keeps the
id and createdAt, trims a provided title and description, and stamps
`updatedAt` with the handler's clock reading.  A provided description that
is neither string nor null throws inside the merge, answered with 500 and
no store change. -/
def update (st : St) (i : Nat) (b : UpdateBody) (now : Nat) : UpdateRes × St :=
  match findFirst (idMatches i) st.tasks with
  | none => (.notFound, st)
  | some cur =>
    if titleBad b.title then
      (.badRequest "Título deve ser uma string não vazia", st)
    else if !enumFieldOk b.status validStatuses then
      (.badRequest "Status inválido. Use: pending, in_progress, completed", st)
    else if !enumFieldOk b.priority validPriorities then
      (.badRequest "Prioridade inválida. Use: low, medium, high", st)
    else
      match descMerge b.description cur.description with
      | none => (.serverError, st)
      | some d =>
        let u : Task :=
          { id := cur.id,
            title := (match b.title with | some (JVal.str s) => jsTrim s | _ => cur.title),
            description := d,
            status := (match b.status with | some (JVal.str s) => s | _ => cur.status),
            priority := (match b.priority with | some (JVal.str s) => s | _ => cur.priority),
            createdAt := cur.createdAt, updatedAt := now }
        (.updated u, { st with tasks := setFirst (idMatches i) u st.tasks })

inductive DeleteRes where
  | notFound
  | deleted (t : Task)
deriving Repr, DecidableEq

/-- DELETE /tasks/:id, envelope variant. -/
def delete (st : St) (i : Nat) : DeleteRes × St :=
  match removeFirst (idMatches i) st.tasks with
  | none => (.notFound, st)
  | some (r, ts) => (.deleted r, { st with tasks := ts })

/-- GET /tasks, envelope variant: the array exactly as stored (inside the
envelope's `data`). -/
def listAll (st : St) : List Task := st.tasks

/-- GET /health, envelope variant: 200 with
`{success: true, data: {timestamp}}` — no top-level `status` key. -/
def health (now : Nat) : Nat × List (String × HVal) :=
  (200, [("success", .bool true), ("data", .obj [("timestamp", JVal.num now)])])

/-- Store states reachable from a base store `s0` whose last clock reading
was `t0`, with nondecreasing handler timestamps (the system clock is
monotone). -/
inductive ReachFrom (s0 : St) (t0 : Nat) : St → Nat → Prop where
  | base : ReachFrom s0 t0 s0 t0
  | create {st t b n} : ReachFrom s0 t0 st t → t ≤ n → ReachFrom s0 t0 (Env.create st b n).2 n
  | update {st t i b n} : ReachFrom s0 t0 st t → t ≤ n → ReachFrom s0 t0 (Env.update st i b n).2 n
  | del {st t i} : ReachFrom s0 t0 st t → ReachFrom s0 t0 (Env.delete st i).2 t

/-- Store states reachable from server start: some four nondecreasing
start-up clock readings stamp the two seeds, and every later handler
timestamp is at least the last start-up reading. -/
def Reach (st : St) (t : Nat) : Prop :=
  ∃ tc1 tu1 tc2 tu2, tc1 ≤ tu1 ∧ tu1 ≤ tc2 ∧ tc2 ≤ tu2 ∧
    ReachFrom (Env.init tc1 tu1 tc2 tu2) tu2 st t

end Env

/-! Helper lemmas about the list operations shared by the two variants. -/

theorem findFirst_pred {α : Type} {p : α → Bool} {l : List α} {x : α}
    (h : findFirst p l = some x) : p x = true := by
  induction l with
  | nil => simp [findFirst] at h
  | cons y ys ih =>
    by_cases hy : p y
    · simp [findFirst, hy] at h
      subst h
      exact hy
    · simp [findFirst, hy] at h
      exact ih h

theorem findFirst_mem {α : Type} {p : α → Bool} {l : List α} {x : α}
    (h : findFirst p l = some x) : x ∈ l := by
  induction l with
  | nil => simp [findFirst] at h
  | cons y ys ih =>
    by_cases hy : p y
    · simp [findFirst, hy] at h
      simp [h]
    · simp [findFirst, hy] at h
      exact List.mem_cons_of_mem _ (ih h)

theorem findFirst_none {α : Type} {p : α → Bool} {l : List α}
    (h : ∀ x ∈ l, p x = false) : findFirst p l = none := by
  induction l with
  | nil => rfl
  | cons y ys ih =>
    have hy := h y (List.mem_cons_self _ _)
    simp [findFirst, hy]
    exact ih fun x hx => h x (List.mem_cons_of_mem _ hx)

theorem setFirst_map_eq {α β : Type} {p : α → Bool} {l : List α} {c v : α} (f : α → β)
    (h : findFirst p l = some c) (hv : f v = f c) :
    (setFirst p v l).map f = l.map f := by
  induction l with
  | nil => simp [findFirst] at h
  | cons y ys ih =>
    by_cases hy : p y
    · simp [findFirst, hy] at h
      subst h
      simp [setFirst, hy, hv]
    · simp [findFirst, hy] at h
      simp [setFirst, hy, ih h]

theorem mem_setFirst {α : Type} {p : α → Bool} {v x : α} {l : List α}
    (h : x ∈ setFirst p v l) : x = v ∨ x ∈ l := by
  induction l with
  | nil => simp [setFirst] at h
  | cons y ys ih =>
    by_cases hy : p y
    · simp [setFirst, hy] at h
      rcases h with h | h
      · exact Or.inl h
      · exact Or.inr (List.mem_cons_of_mem _ h)
    · simp [setFirst, hy] at h
      rcases h with h | h
      · exact Or.inr (by simp [h])
      · rcases ih h with h2 | h2
        · exact Or.inl h2
        · exact Or.inr (List.mem_cons_of_mem _ h2)

theorem findFirst_setFirst {α : Type} {p : α → Bool} {l : List α} {c : α} (v : α)
    (h : findFirst p l = some c) (hv : p v = true) :
    findFirst p (setFirst p v l) = some v := by
  induction l with
  | nil => simp [findFirst] at h
  | cons y ys ih =>
    by_cases hy : p y
    · simp [setFirst, hy, findFirst, hv]
    · simp [findFirst, hy] at h
      simp [setFirst, hy, findFirst, ih h]

theorem removeFirst_sublist {α : Type} {p : α → Bool} {l l2 : List α} {r : α}
    (h : removeFirst p l = some (r, l2)) : l2.Sublist l := by
  induction l generalizing l2 r with
  | nil => simp [removeFirst] at h
  | cons y ys ih =>
    by_cases hy : p y
    · simp [removeFirst, hy] at h
      rw [← h.2]
      exact List.sublist_cons_self y ys
    · simp only [removeFirst, hy] at h
      cases hrec : removeFirst p ys with
      | none => rw [hrec] at h; simp at h
      | some pr =>
        obtain ⟨r2, ys2⟩ := pr
        rw [hrec] at h
        simp at h
        rw [← h.2]
        exact (ih hrec).cons₂ y

theorem asEnum_mem {j : JVal} {xs : List String} {s : String}
    (h : asEnum j xs = some s) : j = JVal.str s ∧ s ∈ xs := by
  cases j with
  | str s2 =>
    simp [asEnum] at h
    obtain ⟨hm, he⟩ := h
    subst he
    exact ⟨rfl, hm⟩
  | num n => simp [asEnum] at h
  | bool b => simp [asEnum] at h
  | null => simp [asEnum] at h

theorem jvalIn_mem {j : JVal} {xs : List String} (h : jvalIn j xs = true) :
    ∃ s, j = JVal.str s ∧ s ∈ xs := by
  cases j with
  | str s2 => exact ⟨s2, rfl, by simpa [jvalIn] using h⟩
  | num n => simp [jvalIn] at h
  | bool b => simp [jvalIn] at h
  | null => simp [jvalIn] at h

namespace Env

/-- Case analysis of the envelope create: either the request fails and the
store is untouched, or exactly the new, validated task is unshifted. -/
theorem create_cases (st : St) (b : CreateBody) (now : Nat) :
    ((create st b now).2 = st ∧ ∀ t, (create st b now).1 ≠ CreateRes.created t) ∨
    ∃ t, (create st b now).1 = CreateRes.created t ∧
      (create st b now).2 = { tasks := t :: st.tasks, nextId := st.nextId + 1 } ∧
      t.createdAt = now ∧ t.updatedAt = now ∧ t.id = st.nextId ∧
      t.status ∈ validStatuses ∧ t.priority ∈ validPriorities := by
  unfold create
  split
  next s =>
    split
    next => exact Or.inl ⟨rfl, fun _ h => CreateRes.noConfusion h⟩
    next =>
      split
      next => exact Or.inl ⟨rfl, fun _ h => CreateRes.noConfusion h⟩
      next ss hss =>
        split
        next => exact Or.inl ⟨rfl, fun _ h => CreateRes.noConfusion h⟩
        next ps hps =>
          split
          next d hd =>
            exact Or.inr ⟨_, rfl, rfl, rfl, rfl, rfl, (asEnum_mem hss).2, (asEnum_mem hps).2⟩
          next => exact Or.inl ⟨rfl, fun _ h => CreateRes.noConfusion h⟩
  next => exact Or.inl ⟨rfl, fun _ h => CreateRes.noConfusion h⟩

/-- Case analysis of the envelope update: either the request fails and the
store is untouched, or the first matching record is replaced by the merged
record, which keeps its id and createdAt. -/
theorem update_cases (st : St) (i : Nat) (b : UpdateBody) (now : Nat) :
    ((update st i b now).2 = st ∧ ∀ u, (update st i b now).1 ≠ UpdateRes.updated u) ∨
    ∃ cur u, findFirst (idMatches i) st.tasks = some cur ∧
      (update st i b now).1 = UpdateRes.updated u ∧
      (update st i b now).2.tasks = setFirst (idMatches i) u st.tasks ∧
      (update st i b now).2.nextId = st.nextId ∧
      u.id = cur.id ∧ u.createdAt = cur.createdAt ∧ u.updatedAt = now ∧
      u.title = (match b.title with | some (JVal.str s) => jsTrim s | _ => cur.title) ∧
      u.description = (descMerge b.description cur.description).getD cur.description ∧
      u.status = (match b.status with | some (JVal.str s) => s | _ => cur.status) ∧
      u.priority = (match b.priority with | some (JVal.str s) => s | _ => cur.priority) ∧
      (u.status = cur.status ∨ u.status ∈ validStatuses) ∧
      (u.priority = cur.priority ∨ u.priority ∈ validPriorities) := by
  unfold update
  split
  next => exact Or.inl ⟨rfl, fun _ h => UpdateRes.noConfusion h⟩
  next cur hcur =>
    split
    next => exact Or.inl ⟨rfl, fun _ h => UpdateRes.noConfusion h⟩
    next =>
      split
      next => exact Or.inl ⟨rfl, fun _ h => UpdateRes.noConfusion h⟩
      next hstat =>
        split
        next => exact Or.inl ⟨rfl, fun _ h => UpdateRes.noConfusion h⟩
        next hprio =>
          split
          next => exact Or.inl ⟨rfl, fun _ h => UpdateRes.noConfusion h⟩
          next d hd =>
            refine Or.inr ⟨cur, _, hcur, rfl, rfl, rfl, rfl, rfl, rfl, rfl, ?_, rfl, rfl, ?_, ?_⟩
            · rw [hd]; rfl
            · simp only [Bool.not_eq_true'] at hstat
              cases hb : b.status with
              | none => exact Or.inl (by simp [hb])
              | some j =>
                rw [hb] at hstat
                simp only [enumFieldOk, Bool.not_eq_false] at hstat
                obtain ⟨s, hjs, hsmem⟩ := jvalIn_mem hstat
                subst hjs
                exact Or.inr (by simpa [hb] using hsmem)
            · simp only [Bool.not_eq_true'] at hprio
              cases hb : b.priority with
              | none => exact Or.inl (by simp [hb])
              | some j =>
                rw [hb] at hprio
                simp only [enumFieldOk, Bool.not_eq_false] at hprio
                obtain ⟨s, hjs, hsmem⟩ := jvalIn_mem hprio
                subst hjs
                exact Or.inr (by simpa [hb] using hsmem)

/-- The envelope delete never touches anything but the removed record. -/
theorem delete_tasks_sublist (st : St) (i : Nat) :
    ((delete st i).2.tasks).Sublist st.tasks ∧ (delete st i).2.nextId = st.nextId := by
  unfold delete
  split
  next => exact ⟨List.Sublist.refl _, rfl⟩
  next r ts h => exact ⟨removeFirst_sublist h, rfl⟩

/-- A record whose status and priority are enumerated values. -/
def goodTask (x : Task) : Prop := x.status ∈ validStatuses ∧ x.priority ∈ validPriorities

/-- Along any envelope trace: if every record of the base store has
enumerated status and priority, so does every record of the reached
store. -/
theorem reachFrom_goodTask {s0 : St} {t0 : Nat} (h0 : ∀ x ∈ s0.tasks, goodTask x)
    {st : St} {t : Nat} (h : ReachFrom s0 t0 st t) :
    ∀ x ∈ st.tasks, goodTask x := by
  induction h with
  | base => exact h0
  | create hr hle ih =>
    rename_i st2 tprev b n
    intro x hx
    rcases create_cases st2 b n with ⟨hc, _⟩ | ⟨u, _, hst, _, _, _, hstat, hprio⟩
    · rw [hc] at hx; exact ih x hx
    · rw [hst] at hx
      rcases List.mem_cons.mp hx with hx | hx
      · subst hx; exact ⟨hstat, hprio⟩
      · exact ih x hx
  | update hr hle ih =>
    rename_i st2 tprev i b n
    intro x hx
    rcases update_cases st2 i b n with ⟨hc, _⟩ |
      ⟨cur, u, hcur, _, htasks, _, _, _, _, _, _, _, _, hstat, hprio⟩
    · rw [hc] at hx; exact ih x hx
    · rw [htasks] at hx
      rcases mem_setFirst hx with hx | hx
      · subst hx
        have hcg := ih cur (findFirst_mem hcur)
        refine ⟨?_, ?_⟩
        · rcases hstat with h2 | h2
          · rw [h2]; exact hcg.1
          · exact h2
        · rcases hprio with h2 | h2
          · rw [h2]; exact hcg.2
          · exact h2
      · exact ih x hx
  | del hr ih =>
    rename_i st2 tprev i
    intro x hx
    exact ih x ((delete_tasks_sublist st2 i).1.mem hx)

/-- Every record in a store reachable from server start has enumerated
status and priority, for any four start-up clock readings. -/
theorem reach_goodTask {st : St} {t : Nat} (h : Reach st t) :
    ∀ x ∈ st.tasks, goodTask x := by
  obtain ⟨tc1, tu1, tc2, tu2, _, _, _, hr⟩ := h
  refine reachFrom_goodTask ?_ hr
  intro x hx
  simp [Env.init] at hx
  rcases hx with hx | hx <;> subst hx <;>
    exact ⟨by simp [seed1, seed2, validStatuses], by simp [seed1, seed2, validPriorities]⟩

/-- The createdAt timestamps of the envelope store, newest first. -/
def createdList (st : St) : List Nat := st.tasks.map Task.createdAt

/-- Along any envelope trace: if the base store's createdAt column is sorted
descending and bounded by the base time, the reached store's column stays
sorted descending and bounded by the last timestamp. -/
theorem reachFrom_sorted {s0 : St} {t0 : Nat}
    (h0 : (createdList s0).Pairwise (fun a b => b ≤ a) ∧ ∀ x ∈ createdList s0, x ≤ t0)
    {st : St} {t : Nat} (h : ReachFrom s0 t0 st t) :
    (createdList st).Pairwise (fun a b => b ≤ a) ∧ ∀ x ∈ createdList st, x ≤ t := by
  induction h with
  | base => exact h0
  | create hr hle ih =>
    rename_i st2 tprev b n
    rcases create_cases st2 b n with ⟨hc, _⟩ | ⟨u, _, hst, hcr, _, _, _, _⟩
    · rw [hc]
      exact ⟨ih.1, fun x hx => le_trans (ih.2 x hx) hle⟩
    · rw [hst]
      refine ⟨?_, ?_⟩
      · show (u.createdAt :: createdList st2).Pairwise _
        rw [List.pairwise_cons]
        refine ⟨fun y hy => ?_, ih.1⟩
        rw [hcr]
        exact le_trans (ih.2 y hy) hle
      · intro x hx
        rcases List.mem_cons.mp hx with hx | hx
        · simp [hx, hcr]
        · exact le_trans (ih.2 x hx) hle
  | update hr hle ih =>
    rename_i st2 tprev i b n
    rcases update_cases st2 i b n with ⟨hc, _⟩ |
      ⟨cur, u, hcur, _, htasks, _, _, hca, _, _, _, _, _, _, _⟩
    · rw [hc]
      exact ⟨ih.1, fun x hx => le_trans (ih.2 x hx) hle⟩
    · have hmap : createdList (update st2 i b n).2 = createdList st2 := by
        unfold createdList
        rw [htasks]
        exact setFirst_map_eq Task.createdAt hcur hca
      rw [hmap]
      exact ⟨ih.1, fun x hx => le_trans (ih.2 x hx) hle⟩
  | del hr ih =>
    rename_i st2 tprev i
    have hsub : (createdList (delete st2 i).2).Sublist (createdList st2) :=
      ((delete_tasks_sublist st2 i).1).map Task.createdAt
    exact ⟨ih.1.sublist hsub, fun x hx => ih.2 x (hsub.mem hx)⟩

end Env

/-! Claim theorems. -/

theorem asEnum_none_of {j : JVal} {xs : List String} (h : ∀ s ∈ xs, j ≠ JVal.str s) :
    asEnum j xs = none := by
  cases j with
  | str s2 =>
    simp only [asEnum, ite_eq_right_iff]
    intro hc
    exact absurd rfl (h s2 (by simpa using hc))
  | num n => rfl
  | bool v => rfl
  | null => rfl

/-- True exactly when the create handler answered 400. -/
def Env.isBadRequest : Env.CreateRes → Bool
  | .badRequest _ => true
  | _ => false

def c1Body : Plain.CreateBody :=
  { title := some (.str "Tarefa"), status := some (.str "bogus") }

def c1Task : Plain.Task :=
  { id := .num 2, title := .str "Tarefa", description := .str "",
    status := .str "bogus", priority := .str "medium",
    createdAt := .num 1, updatedAt := .num 1 }

/-- Claim C1 counterexample: the plain variant's POST /tasks performs no enum
validation at all, so a create whose status is the string "bogus" answers
201 with the record stored as sent, and the store grows from two records to
three — not the 400-and-unchanged-store the claim asserts for every create
handler. -/
theorem C1_counterexample :
    (Plain.create (Plain.init 0) c1Body 1).1 = Plain.CreateRes.created c1Task ∧
    (Plain.create (Plain.init 0) c1Body 1).2.tasks.length = 3 ∧
    (Plain.init 0).tasks.length = 2 := by
  exact ⟨rfl, rfl, rfl⟩

/-- Claim C1 (amended): in the envelope server variant, every create request whose
body carries a status value outside pending/in_progress/completed or a
priority value outside low/medium/high answers with a 400 validation error
and leaves the store unchanged.  (The plain variant stores such values
unchecked; see the counterexample.) -/
theorem C1_envelope_invalid_enum_rejected (st : Env.St) (b : Env.CreateBody) (now : Nat)
    (h : (∃ j, b.status = some j ∧ ∀ s ∈ validStatuses, j ≠ JVal.str s) ∨
         (∃ j, b.priority = some j ∧ ∀ s ∈ validPriorities, j ≠ JVal.str s)) :
    (Env.create st b now).2 = st ∧ Env.isBadRequest (Env.create st b now).1 = true := by
  unfold Env.create
  split
  next s =>
    split
    next => exact ⟨rfl, rfl⟩
    next =>
      rcases h with ⟨j, hj, hne⟩ | ⟨j, hj, hne⟩
      · rw [hj]
        simp only [Option.getD_some]
        rw [asEnum_none_of hne]
        exact ⟨rfl, rfl⟩
      · cases hs : asEnum (b.status.getD (.str "pending")) validStatuses with
        | none => exact ⟨rfl, rfl⟩
        | some ss =>
          rw [hj]
          simp only [Option.getD_some]
          rw [asEnum_none_of hne]
          exact ⟨rfl, rfl⟩
  next => exact ⟨rfl, rfl⟩

def c1wBody : Env.CreateBody :=
  { title := some (.str "Tarefa"), status := some (.str "bogus") }

/-- Witness for C1: a concrete envelope create with status "bogus" answers
400 and leaves the seeded store unchanged. -/
theorem C1_witness :
    (Env.create (Env.init 0 0 0 0) c1wBody 1).2 = Env.init 0 0 0 0 ∧
    Env.isBadRequest (Env.create (Env.init 0 0 0 0) c1wBody 1).1 = true :=
  C1_envelope_invalid_enum_rejected (Env.init 0 0 0 0) c1wBody 1
    (Or.inl ⟨JVal.str "bogus", rfl, by decide⟩)

def c2Body : Plain.CreateBody := { title := some (.str "   ") }

def c2Task : Plain.Task :=
  { id := .num 2, title := .str "   ", description := .str "",
    status := .str "pending", priority := .str "medium",
    createdAt := .num 1, updatedAt := .num 1 }

/-- Claim C2 counterexample: the plain variant's POST /tasks checks only
`!title || typeof title !== "string"`, so a title of three spaces —
whitespace-only, hence empty after trimming — is accepted: 201, record
stored, store grown to three records, not the claimed 400 with no new
record. -/
theorem C2_counterexample :
    (Plain.create (Plain.init 0) c2Body 1).1 = Plain.CreateRes.created c2Task ∧
    (Plain.create (Plain.init 0) c2Body 1).2.tasks.length = 3 ∧
    (Plain.init 0).tasks.length = 2 := by
  exact ⟨rfl, rfl, rfl⟩

/-- Claim C2 (amended): a create whose title is absent, not a string, or the empty
string answers 400 with no new record in both variants; a whitespace-only
(empty-after-trimming) title is rejected the same way by the envelope
variant only — the plain variant accepts it (see the counterexample). -/
theorem C2_title_validation :
    (∀ (st : Plain.St) (b : Plain.CreateBody) (now : Nat),
      (b.title = none ∨ b.title = some (JVal.str "") ∨
        (∀ s, b.title ≠ some (JVal.str s))) →
      Plain.create st b now = (Plain.CreateRes.badRequest "Título é obrigatório", st)) ∧
    (∀ (st : Env.St) (b : Env.CreateBody) (now : Nat),
      (b.title = none ∨ (∃ s, b.title = some (JVal.str s) ∧ jsTrim s = "") ∨
        (∀ s, b.title ≠ some (JVal.str s))) →
      Env.create st b now =
        (Env.CreateRes.badRequest "Título é obrigatório e deve ser uma string não vazia", st)) := by
  constructor
  · intro st b now h
    unfold Plain.create
    rcases h with h | h | h
    · rw [h]
    · rw [h]
      rfl
    · cases hb : b.title with
      | none => rfl
      | some j =>
        cases j with
        | str s => exact absurd hb (h s)
        | num n => rfl
        | bool v => rfl
        | null => rfl
  · intro st b now h
    unfold Env.create
    rcases h with h | ⟨s, hs, htrim⟩ | h
    · rw [h]
    · rw [hs]
      simp [htrim]
    · cases hb : b.title with
      | none => rfl
      | some j =>
        cases j with
        | str s => exact absurd hb (h s)
        | num n => rfl
        | bool v => rfl
        | null => rfl

/-- Witness for C2: an absent title (plain variant) and a whitespace-only
title (envelope variant) are both answered 400 with the store unchanged. -/
theorem C2_witness :
    Plain.create (Plain.init 0) { title := none } 1 =
      (Plain.CreateRes.badRequest "Título é obrigatório", Plain.init 0) ∧
    Env.create (Env.init 0 0 0 0) { title := some (JVal.str "   ") } 1 =
      (Env.CreateRes.badRequest "Título é obrigatório e deve ser uma string não vazia",
        Env.init 0 0 0 0) :=
  ⟨C2_title_validation.1 (Plain.init 0) { title := none } 1 (Or.inl rfl),
   C2_title_validation.2 (Env.init 0 0 0 0) { title := some (JVal.str "   ") } 1
     (Or.inr (Or.inl ⟨"   ", rfl, by decide⟩))⟩

def c3Body : Plain.CreateBody :=
  { title := some (.str "Tarefa"), status := some (.str "bogus") }

def c3St : Plain.St := (Plain.create (Plain.init 0) c3Body 1).2

/-- Claim C3 counterexample: one create against the plain variant reaches a store
whose head record has status "bogus", which is not an enumerated status, so
the claimed store invariant fails for the plain variant. -/
theorem C3_counterexample :
    Plain.Reach c3St 1 ∧
    (c3St.tasks.head?).map Plain.Task.status = some (JVal.str "bogus") ∧
    "bogus" ∉ validStatuses := by
  exact ⟨Plain.Reach.create (Plain.Reach.init 0) (Nat.zero_le 1), rfl, by decide⟩

/-- Claim C3 (amended): in the envelope server variant, after any sequence of
create, update and delete operations starting from the initial store, every
live record's status is one of pending/in_progress/completed and its
priority one of low/medium/high.  (The plain variant stores arbitrary
values; see the counterexample.) -/
theorem C3_envelope_store_invariant (st : Env.St) (t : Nat) (h : Env.Reach st t) :
    ∀ x ∈ st.tasks, x.status ∈ validStatuses ∧ x.priority ∈ validPriorities :=
  Env.reach_goodTask h

/-- Witness for C3: the invariant instantiated at the initial envelope store
and its first seeded record. -/
theorem C3_witness :
    (Env.seed1 0 0).status ∈ validStatuses ∧ (Env.seed1 0 0).priority ∈ validPriorities :=
  C3_envelope_store_invariant (Env.init 0 0 0 0) 0
    ⟨0, 0, 0, 0, Nat.le_refl 0, Nat.le_refl 0, Nat.le_refl 0, Env.ReachFrom.base⟩
    (Env.seed1 0 0) (by decide)

def c4Body : Plain.UpdateBody := { id := some (.num 99) }

def c4Task : Plain.Task :=
  { id := .num 99, title := .str "Planejar sprint",
    description := .str "Listar tarefas principais da semana",
    status := .str "in_progress", priority := .str "high",
    createdAt := .num 0, updatedAt := .num 1 }

/-- Claim C4 counterexample: the plain variant's PUT spreads the body over the
record, so a body carrying an id key rewrites the record's id: updating the
seeded record with id 0 using body `{id: 99}` yields a record whose id is
99, not the original 0 — the id is not immutable under the plain update. -/
theorem C4_counterexample :
    (Plain.update (Plain.init 0) (JVal.num 0) c4Body 1).1 = Plain.UpdateRes.updated c4Task ∧
    (Plain.seed1 0).id = JVal.num 0 ∧ c4Task.id ≠ JVal.num 0 := by
  exact ⟨rfl, rfl, by decide⟩

/-- Claim C4 (amended): the envelope variant's update never changes any record's
id, whatever the body: a successful update returns a record whose id is the
requested one and leaves the store's id column unchanged.  The plain
variant preserves the id exactly when the body carries no id key (see the
counterexample for a body that does). -/
theorem C4_id_immutable :
    (∀ (st : Env.St) (i : Nat) (b : Env.UpdateBody) (now : Nat) (u : Env.Task),
      (Env.update st i b now).1 = Env.UpdateRes.updated u →
      u.id = i ∧
      (Env.update st i b now).2.tasks.map Env.Task.id = st.tasks.map Env.Task.id) ∧
    (∀ (st : Plain.St) (i : JVal) (b : Plain.UpdateBody) (now : Nat) (cur u : Plain.Task),
      b.id = none →
      findFirst (Plain.idMatches i) st.tasks = some cur →
      (Plain.update st i b now).1 = Plain.UpdateRes.updated u →
      u.id = cur.id) := by
  constructor
  · intro st i b now u h
    rcases Env.update_cases st i b now with ⟨_, hne⟩ |
      ⟨cur, u2, hcur, hres, htasks, _, hid, _, _, _, _, _, _, _, _⟩
    · exact absurd h (hne u)
    · rw [h] at hres
      injection hres with huu
      subst huu
      have hcuri : cur.id = i := by
        have := findFirst_pred hcur
        simpa [Env.idMatches] using this
      refine ⟨by rw [hid, hcuri], ?_⟩
      rw [htasks]
      exact setFirst_map_eq Env.Task.id hcur hid
  · intro st i b now cur u hbid hf h
    unfold Plain.update at h
    rw [hf] at h
    injection h with h2
    rw [← h2]
    simp [Plain.merge, hbid]

def c4u : Env.Task :=
  { id := 0, title := "Planejar sprint", description := "Listar tarefas principais da semana",
    status := "in_progress", priority := "high", createdAt := 0, updatedAt := 1 }

def c4pu : Plain.Task :=
  { id := .num 0, title := .str "Planejar sprint",
    description := .str "Listar tarefas principais da semana",
    status := .str "in_progress", priority := .str "high",
    createdAt := .num 0, updatedAt := .num 1 }

/-- Witness for C4: an empty-body envelope update of the first seeded record
returns a record keeping id 0 and leaves the id column [0, 1]; the plain
update with an id-free body also keeps the record's id. -/
theorem C4_witness :
    c4u.id = 0 ∧
    ((Env.update (Env.init 0 0 0 0) 0 {} 1).2.tasks.map Env.Task.id =
      (Env.init 0 0 0 0).tasks.map Env.Task.id) ∧
    c4pu.id = (Plain.seed1 0).id :=
  ⟨(C4_id_immutable.1 (Env.init 0 0 0 0) 0 {} 1 c4u (by decide)).1,
   (C4_id_immutable.1 (Env.init 0 0 0 0) 0 {} 1 c4u (by decide)).2,
   C4_id_immutable.2 (Plain.init 0) (JVal.num 0) {} 1 (Plain.seed1 0) c4pu rfl (by decide)
     (by decide)⟩

/-- A PUT body providing only the status key (plain variant). -/
def Plain.statusOnly (j : JVal) : Plain.UpdateBody := { status := some j }

/-- A PUT body providing only the status key (envelope variant). -/
def Env.statusOnly (j : JVal) : Env.UpdateBody := { status := some j }

/-- Claim C5: in both variants, updating an existing record with a body that
provides only the status field leaves the record's title, description and
priority at their previous values and sets updated_at to a value that is at
least the previous updated_at (given the clock's monotonicity).  In the
plain variant the update always succeeds and stamps the new time; in the
envelope variant a rejected status leaves the record fully unchanged, which
also satisfies the claim. -/
theorem C5_status_only_update_frame :
    (∀ (st : Plain.St) (i j : JVal) (now p : Nat) (cur : Plain.Task),
      findFirst (Plain.idMatches i) st.tasks = some cur →
      cur.updatedAt = JVal.num p → p ≤ now →
      (findFirst (Plain.idMatches i)
          (Plain.update st i (Plain.statusOnly j) now).2.tasks).map
            (fun v => (v.title, v.description, v.priority, v.updatedAt)) =
        some (cur.title, cur.description, cur.priority, JVal.num now) ∧ p ≤ now) ∧
    (∀ (st : Env.St) (i : Nat) (j : JVal) (now : Nat) (cur : Env.Task),
      findFirst (Env.idMatches i) st.tasks = some cur →
      cur.updatedAt ≤ now →
      (findFirst (Env.idMatches i)
          (Env.update st i (Env.statusOnly j) now).2.tasks).map
            (fun v => (v.title, v.description, v.priority)) =
        some (cur.title, cur.description, cur.priority) ∧
      cur.updatedAt ≤
        ((findFirst (Env.idMatches i)
          (Env.update st i (Env.statusOnly j) now).2.tasks).map Env.Task.updatedAt).getD now) := by
  constructor
  · intro st i j now p cur hf hup hle
    have hpred := findFirst_pred hf
    have hmatch : Plain.idMatches i (Plain.merge cur (Plain.statusOnly j) now) = true := by
      simpa [Plain.idMatches, Plain.merge, Plain.statusOnly] using hpred
    refine ⟨?_, hle⟩
    unfold Plain.update
    rw [hf]
    show (findFirst (Plain.idMatches i)
        (setFirst (Plain.idMatches i) (Plain.merge cur (Plain.statusOnly j) now) st.tasks)).map _ = _
    rw [findFirst_setFirst _ hf hmatch]
    rfl
  · intro st i j now cur hf hle
    rcases Env.update_cases st i (Env.statusOnly j) now with ⟨hc, _⟩ |
      ⟨cur2, u, hcur, _, htasks, _, hid, _, hupd, htitle, hdesc, hstatEq, hprioEq, _, _⟩
    · rw [hc, hf]
      exact ⟨rfl, by simp⟩
    · rw [hcur] at hf
      injection hf with hf
      subst hf
      have hpred := findFirst_pred hcur
      have hmatch : Env.idMatches i u = true := by
        simpa [Env.idMatches, hid] using hpred
      have hfindu : findFirst (Env.idMatches i)
          (Env.update st i (Env.statusOnly j) now).2.tasks = some u := by
        rw [htasks]
        exact findFirst_setFirst _ hcur hmatch
      rw [hfindu]
      simp only [Env.statusOnly] at htitle hdesc hprioEq
      refine ⟨?_, ?_⟩
      · show some (u.title, u.description, u.priority) = _
        rw [htitle, hdesc, hprioEq]
        rfl
      · show _ ≤ u.updatedAt
        rw [hupd]
        exact hle

/-- Witness for C5: a status-only update of the first seeded record in each
variant keeps title, description and priority and stamps the new time 5. -/
theorem C5_witness :
    ((findFirst (Plain.idMatches (JVal.num 0))
        (Plain.update (Plain.init 0) (JVal.num 0)
          (Plain.statusOnly (JVal.str "completed")) 5).2.tasks).map
          (fun v => (v.title, v.description, v.priority, v.updatedAt)) =
      some ((Plain.seed1 0).title, (Plain.seed1 0).description, (Plain.seed1 0).priority,
        JVal.num 5) ∧ 0 ≤ 5) ∧
    ((findFirst (Env.idMatches 0)
        (Env.update (Env.init 0 0 0 0) 0 (Env.statusOnly (JVal.str "completed")) 5).2.tasks).map
          (fun v => (v.title, v.description, v.priority)) =
      some ((Env.seed1 0 0).title, (Env.seed1 0 0).description, (Env.seed1 0 0).priority) ∧
      (Env.seed1 0 0).updatedAt ≤
        ((findFirst (Env.idMatches 0)
          (Env.update (Env.init 0 0 0 0) 0 (Env.statusOnly (JVal.str "completed")) 5).2.tasks).map
            Env.Task.updatedAt).getD 5) :=
  ⟨C5_status_only_update_frame.1 (Plain.init 0) (JVal.num 0) (JVal.str "completed") 5 0
      (Plain.seed1 0) (by decide) rfl (by decide),
   C5_status_only_update_frame.2 (Env.init 0 0 0 0) 0 (JVal.str "completed") 5
      (Env.seed1 0 0) (by decide) (by decide)⟩

/-- Claim C6: in both variants, a PUT whose id matches no record answers 404 and
returns the store exactly as it was — no record added, removed or
modified. -/
theorem C6_update_missing_id :
    (∀ (st : Plain.St) (i : JVal) (b : Plain.UpdateBody) (now : Nat),
      (∀ x ∈ st.tasks, x.id ≠ i) →
      Plain.update st i b now = (Plain.UpdateRes.notFound, st)) ∧
    (∀ (st : Env.St) (i : Nat) (b : Env.UpdateBody) (now : Nat),
      (∀ x ∈ st.tasks, x.id ≠ i) →
      Env.update st i b now = (Env.UpdateRes.notFound, st)) := by
  constructor
  · intro st i b now h
    have hnone : findFirst (Plain.idMatches i) st.tasks = none :=
      findFirst_none fun x hx => by
        simp only [Plain.idMatches, beq_eq_false_iff_ne, ne_eq]
        exact h x hx
    unfold Plain.update
    rw [hnone]
  · intro st i b now h
    have hnone : findFirst (Env.idMatches i) st.tasks = none :=
      findFirst_none fun x hx => by
        simp only [Env.idMatches, beq_eq_false_iff_ne, ne_eq]
        exact h x hx
    unfold Env.update
    rw [hnone]

/-- Witness for C6: updating the unknown id 99 on the seeded store of either
variant answers 404 with the store unchanged. -/
theorem C6_witness :
    Plain.update (Plain.init 0) (JVal.num 99) {} 1 = (Plain.UpdateRes.notFound, Plain.init 0) ∧
    Env.update (Env.init 0 0 0 0) 99 {} 1 = (Env.UpdateRes.notFound, Env.init 0 0 0 0) :=
  ⟨C6_update_missing_id.1 (Plain.init 0) (JVal.num 99) {} 1 (by decide),
   C6_update_missing_id.2 (Env.init 0 0 0 0) 99 {} 1 (by decide)⟩

def c7Body : Plain.UpdateBody := { createdAt := some (.num 5) }

def c7St : Plain.St := (Plain.update (Plain.init 0) (JVal.num 1) c7Body 5).2

/-- The numeric createdAt column of a plain store (in the state used below
every createdAt is a number). -/
def plainCreatedNums (st : Plain.St) : List Nat :=
  st.tasks.filterMap fun t => match t.createdAt with | JVal.num n => some n | _ => none

/-- Claim C7 counterexample: the plain variant's PUT spreads the body over the
record, so a body carrying a createdAt key rewrites it; one such update on
the seeded store reaches a state whose createdAt column is [0, 5] —
ascending, not the claimed descending order — and GET /tasks returns the
array as stored. -/
theorem C7_counterexample :
    Plain.Reach c7St 5 ∧ plainCreatedNums c7St = [0, 5] ∧
    ¬ (plainCreatedNums c7St).Chain' (fun a b => b ≤ a) := by
  refine ⟨Plain.Reach.update (Plain.Reach.init 0) (Nat.zero_le 5), by decide, ?_⟩
  rw [show plainCreatedNums c7St = [0, 5] from by decide]
  simp [List.chain'_cons]

/-- Claim C7 (amended): in the envelope server variant, whenever the two
start-up clock readings that stamp the seeds' createdAt coincide (they come
from separate `new Date()` calls, so the source does not guarantee this;
when they differ the initial array itself is ascending by createdAt), every
store reachable from that start lists all live records, as stored, ordered
by createdAt descending: each record's createdAt is at least the next
one's.  The plain variant's spread-based update can additionally overwrite
createdAt and break the order; see the counterexample. -/
theorem C7_envelope_list_sorted (tc tu1 tu2 : Nat) (hctu : tc ≤ tu2)
    (st : Env.St) (t : Nat)
    (h : Env.ReachFrom (Env.init tc tu1 tc tu2) tu2 st t) :
    Env.listAll st = st.tasks ∧
    (Env.listAll st).Chain' (fun a b => b.createdAt ≤ a.createdAt) := by
  refine ⟨rfl, ?_⟩
  have hbase : (Env.createdList (Env.init tc tu1 tc tu2)).Pairwise (fun a b => b ≤ a) ∧
      ∀ x ∈ Env.createdList (Env.init tc tu1 tc tu2), x ≤ tu2 := by
    constructor
    · simp [Env.createdList, Env.init, Env.seed1, Env.seed2, List.pairwise_cons]
    · intro x hx
      simp [Env.createdList, Env.init, Env.seed1, Env.seed2] at hx
      subst hx
      exact hctu
  have hp := (Env.reachFrom_sorted hbase h).1
  have hc : (Env.createdList st).Chain' (fun a b => b ≤ a) := hp.chain'
  unfold Env.createdList at hc
  exact (List.chain'_map Env.Task.createdAt).mp hc

/-- Witness for C7: with equal seed createdAt readings 3 (and updatedAt
readings 3 and 4), the initial envelope store lists both seeds in weakly
descending createdAt order. -/
theorem C7_witness :
    Env.listAll (Env.init 3 3 3 4) = (Env.init 3 3 3 4).tasks ∧
    (Env.listAll (Env.init 3 3 3 4)).Chain' (fun a b => b.createdAt ≤ a.createdAt) :=
  C7_envelope_list_sorted 3 3 4 (by decide) (Env.init 3 3 3 4) 4 Env.ReachFrom.base

/-- Claim C8 counterexample: the envelope variant's GET /health answers 200 but
its body is `{success, data}` — there is no status key at the top level of
the body, contrary to the claim that every health response body carries
both a status and a timestamp field. -/
theorem C8_counterexample :
    (Env.health 0).1 = 200 ∧ "status" ∉ (Env.health 0).2.map Prod.fst := by
  exact ⟨rfl, by decide⟩

/-- Claim C8 (amended): every GET /health answers 200 in both variants; the plain
variant's body carries status and timestamp keys, while the envelope
variant's body carries success and data keys, the timestamp sitting inside
data (no top-level status key; see the counterexample). -/
theorem C8_health_contract (now : Nat) :
    (Plain.health now).1 = 200 ∧
    "status" ∈ (Plain.health now).2.map Prod.fst ∧
    "timestamp" ∈ (Plain.health now).2.map Prod.fst ∧
    (Env.health now).1 = 200 ∧
    (Env.health now).2.map Prod.fst = ["success", "data"] ∧
    ("data", HVal.obj [("timestamp", JVal.num now)]) ∈ (Env.health now).2 := by
  refine ⟨rfl, ?_, ?_, rfl, rfl, ?_⟩ <;> simp [Plain.health, Env.health]

/-- Claim C9: in the envelope variant, a successful create immediately followed by
getById on the returned record's id finds exactly the created record, equal
in every field. -/
theorem C9_create_then_getById (st : Env.St) (b : Env.CreateBody) (now : Nat) (t : Env.Task)
    (h : (Env.create st b now).1 = Env.CreateRes.created t) :
    Env.getById (Env.create st b now).2 t.id = Env.GetRes.found t := by
  rcases Env.create_cases st b now with ⟨_, hne⟩ | ⟨u, h1, hst, _, _, _, _, _⟩
  · exact absurd h (hne t)
  · rw [h] at h1
    injection h1 with htu
    subst htu
    rw [hst]
    unfold Env.getById
    have hfind : findFirst (Env.idMatches t.id) (t :: st.tasks) = some t := by
      simp [findFirst, Env.idMatches]
    show (match findFirst (Env.idMatches t.id) (t :: st.tasks) with
      | none => Env.GetRes.notFound | some x => Env.GetRes.found x) = Env.GetRes.found t
    rw [hfind]

def c9Body : Env.CreateBody := { title := some (.str "Plan sprint") }

def c9Task : Env.Task :=
  { id := 2, title := "Plan sprint", description := "", status := "pending",
    priority := "medium", createdAt := 7, updatedAt := 7 }

/-- Witness for C9: creating "Plan sprint" on the seeded envelope store and
reading back its id returns the very record the create answered. -/
theorem C9_witness :
    Env.getById (Env.create (Env.init 0 0 0 0) c9Body 7).2 c9Task.id = Env.GetRes.found c9Task :=
  C9_create_then_getById (Env.init 0 0 0 0) c9Body 7 c9Task (by decide)

/-- Claim C10: in the envelope variant, every accepted create stores and returns
the trimmed title and the trimmed description, not the raw submitted
strings. -/
theorem C10_create_trims (st : Env.St) (b : Env.CreateBody) (now : Nat) (t : Env.Task)
    (rawT rawD : String)
    (hT : b.title = some (JVal.str rawT)) (hD : b.description = some (JVal.str rawD))
    (h : (Env.create st b now).1 = Env.CreateRes.created t) :
    t.title = jsTrim rawT ∧ t.description = jsTrim rawD := by
  unfold Env.create at h
  simp only [hT] at h
  split at h
  · simp at h
  · split at h
    · simp at h
    next ss hss =>
      split at h
      · simp at h
      next ps hps =>
        simp only [hD, Option.getD_some] at h
        replace h : Env.CreateRes.created
            { id := st.nextId, title := jsTrim rawT, description := jsTrim rawD,
              status := ss, priority := ps, createdAt := now, updatedAt := now } =
            Env.CreateRes.created t := h
        injection h with h2
        rw [← h2]
        exact ⟨rfl, rfl⟩

def c10Body : Env.CreateBody :=
  { title := some (.str "  Plan sprint  "), description := some (.str " desc ") }

def c10Task : Env.Task :=
  { id := 2, title := "Plan sprint", description := "desc", status := "pending",
    priority := "medium", createdAt := 4, updatedAt := 4 }

/-- Witness for C10: a create with title "  Plan sprint  " and description
" desc " stores "Plan sprint" and "desc". -/
theorem C10_witness :
    c10Task.title = jsTrim "  Plan sprint  " ∧ c10Task.description = jsTrim " desc " :=
  C10_create_trims (Env.init 0 0 0 0) c10Body 4 c10Task "  Plan sprint  " " desc " rfl rfl (by decide)
